import Mathlib

set_option maxRecDepth 8000

/-
Shallow embedding of src/doc/latex2pdf.py: timestamps, aux-file snapshots,
staleness checks, the log classifier, the orchestrator loop decision, and the
citation-index normalizer. Each definition mirrors one Python function; file
system access is abstracted as explicit function parameters.
-/

namespace Latex2Pdf

/-- Modification times as used through `getmtime`: a Python float that is either
a real timestamp or one of the two infinities passed via the `na` argument. -/
inductive MTime where
  | neginf : MTime
  | fin : Int → MTime
  | posinf : MTime
deriving DecidableEq

/-- Ordering `a <= b` on timestamps (Python float comparison with infinities). -/
def MTime.le : MTime → MTime → Bool
  | .neginf, _ => true
  | _, .posinf => true
  | .fin a, .fin b => decide (a ≤ b)
  | .posinf, .neginf => false
  | .posinf, .fin _ => false
  | .fin _, .neginf => false

/-- Strict ordering `a < b` on timestamps. -/
def MTime.lt : MTime → MTime → Bool
  | _, .neginf => false
  | .neginf, _ => true
  | .fin a, .fin b => decide (a < b)
  | .fin _, .posinf => true
  | .posinf, _ => false

/-- Binary maximum on timestamps. -/
def MTime.max (a b : MTime) : MTime := if MTime.le a b then b else a

/-- Binary minimum on timestamps. -/
def MTime.min (a b : MTime) : MTime := if MTime.le a b then a else b

/-- `safemax` from the source: maximum of a list, `-inf` when empty. -/
def safemax (l : List MTime) : MTime := l.foldr MTime.max MTime.neginf

/-- `safemin` from the source: minimum of a list, `+inf` when empty. -/
def safemin (l : List MTime) : MTime := l.foldr MTime.min MTime.posinf

/-- `getmtime` from the source: the file's modification time, or the `na`
argument when the file does not exist.  The file system is abstracted as a
function from names to optional timestamps. -/
def getmtime (mtimeOf : String → Option Int) (f : String) (na : MTime) : MTime :=
  match mtimeOf f with
  | some t => MTime.fin t
  | none => na

/-- The `AuxFile` named tuple from the source. -/
structure AuxFile where
  relpath : String
  fexists : Bool
  timestamp : MTime
  bibdata : List String
  md5 : Option String
deriving DecidableEq

/-- Dictionary lookup on an association-list snapshot set (Python dict keyed by
path; keys are unique in every dict the program builds). -/
def lookupAux (m : List (String × AuxFile)) (f : String) : Option AuxFile :=
  (m.find? (fun p => p.1 == f)).map (fun p => p.2)

/-- `getmodifiedaux` from the source: entries of `new` that are absent from
`old`, have a strictly later timestamp, or (when `md5` is set) a different
digest. -/
def getmodifiedaux (old new : List (String × AuxFile)) (md5 : Bool) :
    List (String × AuxFile) :=
  new.filter (fun p =>
    match lookupAux old p.1 with
    | none => true
    | some o => MTime.lt o.timestamp p.2.timestamp || (md5 && (p.2.md5 != o.md5)))

/-- String suffix test on the underlying character lists. -/
def strEndsWith (f suffix : String) : Bool := suffix.data.isSuffixOf f.data

/-- The substitution `re.sub(".aux$", ".bbl", f)` used by `biboutofdate`: the
regex matches one arbitrary (non-newline) character followed by `aux` at the
end of the string, and the match is replaced by `.bbl`. -/
def subAuxBbl (f : String) : String :=
  match f.data.reverse with
  | 'x' :: 'u' :: 'a' :: c :: rest =>
    if c ≠ '\n' then String.mk (('l' :: 'b' :: 'b' :: '.' :: rest).reverse)
    else f
  | _ => f

/-- The bibliography source list collected at the top of `biboutofdate`:
all `\bibdata` names from all snapshots, with `-blx.bib` entries dropped
unless `includeblx` is set. -/
def bibSources (auxinfo : List (String × AuxFile)) (includeblx : Bool) :
    List String :=
  let bib := auxinfo.flatMap (fun p => p.2.bibdata)
  if includeblx then bib
  else bib.filter (fun b => !(strEndsWith b ("-blx.bib")))

/-- The `newestbib` value of `biboutofdate`: maximum mtime of the resolved
bibliography files, a missing file counting as `-inf` (the `getmtime` default). -/
def newestbibOf (mtimeOf : String → Option Int) (bibfull : List String) : MTime :=
  safemax (bibfull.map (fun f => getmtime mtimeOf f MTime.neginf))

/-- The `oldestbbl` value of `biboutofdate`: minimum mtime of the `.bbl` files
derived from the snapshot keys, a missing file counting as `+inf` (the
explicitly passed `na=float("inf")`). -/
def oldestbblOf (auxinfo : List (String × AuxFile))
    (mtimeOf : String → Option Int) : MTime :=
  safemin ((auxinfo.map (fun p => subAuxBbl p.1)).map
    (fun f => getmtime mtimeOf f MTime.posinf))

/-- `biboutofdate` from the source.  `kpse` abstracts the `kpsewhich`
subprocess composed with `getfullpaths` (bare names in, resolved paths out). -/
def biboutofdate (auxinfo : List (String × AuxFile))
    (mtimeOf : String → Option Int) (kpse : List String → List String)
    (includeblx : Bool) : Bool × List String :=
  let bib := bibSources auxinfo includeblx
  if bib.isEmpty then (false, [])
  else
    let bibfull := kpse bib
    (MTime.le (oldestbblOf auxinfo mtimeOf) (newestbibOf mtimeOf bibfull), bibfull)

/-- The per-index staleness check in `main` (lines 897-902):
`textime >= indextime` with `textime = getmtime(texfile)` (default `na=-inf`)
and `indextime = getmtime(indexfile, na=float("inf"))`. -/
def indexOutOfDate (mtimeOf : String → Option Int) (texfile indexfile : String) :
    Bool :=
  MTime.le (getmtime mtimeOf indexfile MTime.posinf)
    (getmtime mtimeOf texfile MTime.neginf)

/-- The bibdata-change signal in `main` (lines 883-887): over the modified
snapshot set, a file with a nonempty bibdata list that was present before with
a different bibdata tuple sets the continue decision. -/
def bibdataChanged (oldaux newaux : List (String × AuxFile)) (md5 : Bool) : Bool :=
  (getmodifiedaux oldaux newaux md5).any (fun p =>
    !p.2.bibdata.isEmpty &&
      (match lookupAux oldaux p.1 with
       | some o => decide (o.bibdata ≠ p.2.bibdata)
       | none => false))

/-- The (path-free) information `getauxinfo` reads from an existing file:
its mtime and its `\bibdata` entries. -/
structure FileInfo where
  mtime : Int
  bibdata : List String
deriving DecidableEq

/-- The run-time values the local variable `md5` of `getauxinfo` takes in
Python: the original boolean flag, a digest string (after the first existing
file is processed), or `None` (after a missing file is processed — the
parameter is rebound by `md5 = md5sum(f) if md5 else None`). -/
inductive Md5Flag where
  | asBool : Bool → Md5Flag
  | asStr : String → Md5Flag
  | asNone : Md5Flag
deriving DecidableEq

/-- Python truthiness of the `md5` variable. -/
def Md5Flag.truthy : Md5Flag → Bool
  | .asBool b => b
  | .asStr s => !s.isEmpty
  | .asNone => false

/-- The loop body of `getauxinfo`, threading the rebound `md5` variable
through the iteration.  `fs` abstracts the file system, `digest` the
`md5sum` helper. -/
def getauxinfoGo (fs : String → Option FileInfo) (digest : String → String) :
    List String → Md5Flag → List (String × AuxFile)
  | [], _ => []
  | f :: rest, m =>
    match fs f with
    | some fi =>
      (f, ⟨f, true, MTime.fin fi.mtime, fi.bibdata,
            if m.truthy then some (digest f) else none⟩) ::
        getauxinfoGo fs digest rest
          (if m.truthy then Md5Flag.asStr (digest f) else Md5Flag.asNone)
    | none =>
      (f, ⟨f, false, MTime.neginf, [], none⟩) ::
        getauxinfoGo fs digest rest Md5Flag.asNone

/-- `getauxinfo` from the source (paths abstracted: `relpath` is the name
itself); only names with the tracked `.aux` extension are snapshotted. -/
def getauxinfo (fs : String → Option FileInfo) (digest : String → String)
    (files : List String) (md5 : Md5Flag) : List (String × AuxFile) :=
  getauxinfoGo fs digest (files.filter (fun f => strEndsWith f (".aux"))) md5

/-- The `Check` named tuple of `ErrorChecker`: a compiled regex (abstracted as
a predicate on lines), a severity level, and a capture-line count. -/
structure Check where
  regex : String → Bool
  level : String
  lines : Nat

/-- The extra lines gathered by `check.lines - 1` calls of `next(log, "")`:
the next `n` lines of the remaining log, padded with empty strings once the
log is exhausted. -/
def padTake (n : Nat) (xs : List String) : List String :=
  xs.take n ++ List.replicate (n - xs.length) ("")

/-- The inner loop of `ErrorChecker.search`: test one line against every
registered check in order; each match emits one `(level, block)` message and
advances the shared log iterator past the captured context lines. -/
def runChecks (line : String) : List Check → List String →
    List (String × String) × List String
  | [], rest => ([], rest)
  | c :: cs, rest =>
    if c.regex line then
      let block := String.intercalate ("\n") (line :: padTake (c.lines - 1) rest)
      let r := runChecks line cs (rest.drop (c.lines - 1))
      ((c.level, block) :: r.1, r.2)
    else runChecks line cs rest

/-- The outer loop of `ErrorChecker.search`, with explicit fuel (one unit per
iterator step; `log.length` always suffices). -/
def searchAllFuel (checks : List Check) : Nat → List String →
    List (String × String)
  | 0, _ => []
  | _, [] => []
  | fuel + 1, line :: rest =>
    let r := runChecks line checks rest
    r.1 ++ searchAllFuel checks fuel r.2

/-- `ErrorChecker.search` from the source, returning the matched messages in
discovery order as `(level, block)` pairs. -/
def searchAll (checks : List Check) (log : List String) :
    List (String × String) :=
  searchAllFuel checks log.length log

/-- One severity bucket of the `defaultdict(list)` result of
`ErrorChecker.search`: the blocks of that level in discovery order. -/
def bucket (lvl : String) (msgs : List (String × String)) : List String :=
  (msgs.filter (fun m => m.1 == lvl)).map (fun m => m.2)

/-- The signals one iteration of the main loop folds into `keepgoing`;
each field is the value the corresponding check contributes on that run. -/
structure IterState where
  pdflatexCode : Int
  logMessages : List (String × String)
  bibStale : Bool
  slidesChanged : Bool
  bibdataDirty : Bool
  paranoidDirty : Bool
  indexStale : Bool
deriving DecidableEq

/-- The log test of `main`: `any(len(logmessages[k]) > 0 for k in
["warning", "error", "fatal"])`. -/
def logDirty (msgs : List (String × String)) : Bool :=
  ([("warning" : String), ("error" : String), ("fatal" : String)]).any
    (fun k => !(bucket k msgs).isEmpty)

/-- The `keepgoing` value at the end of one loop iteration of `main`:
a disjunction of the pdflatex exit status, the log buckets, the staleness
and change signals, and the minimum-run floor `runcount < minruns`. -/
def keepgoingAt (st : IterState) (minruns run : Nat) : Bool :=
  decide (st.pdflatexCode ≠ 0) || logDirty st.logMessages || st.bibStale ||
    st.slidesChanged || st.bibdataDirty || st.paranoidDirty || st.indexStale ||
    decide (run < minruns)

/-- The `for runcount in range(1, maxruns + 1)` loop of `main` over an
explicit list of run indices: returns the final `(runcount, keepgoing)` pair
(the loop breaks as soon as `keepgoing` is false). -/
def runLoop (sig : Nat → IterState) (minruns : Nat) : List Nat → Nat × Bool
  | [] => (0, true)
  | [r] => (r, keepgoingAt (sig r) minruns r)
  | r :: rs =>
    if keepgoingAt (sig r) minruns r then runLoop sig minruns rs else (r, false)

/-- The main loop of `main`: run indices `1..maxruns`; the run succeeds iff
the final `keepgoing` is false. -/
def mainLoop (sig : Nat → IterState) (minruns maxruns : Nat) : Nat × Bool :=
  runLoop sig minruns (List.range' 1 maxruns)

/-- An iteration in which pdflatex exits zero and every signal is clean. -/
def cleanIterState : IterState := ⟨0, [], false, false, false, false, false⟩

/-- Python's `\s` character class (ASCII part). -/
def pyIsSpace (c : Char) : Bool :=
  c == ' ' || c == '\t' || c == '\n' || c == '\x0b' || c == '\x0c' || c == '\r'

/-- `re.sub` for the pattern `\s+\}` with replacement text `"{"` (this is the
swapped replacement the source's `nobracespace` performs via
`spacebeforere.sub("{", s)`).  Fuel-indexed; one unit per scan position. -/
def subSpaceBeforeFuel : Nat → List Char → List Char
  | 0, s => s
  | _, [] => []
  | fuel + 1, c :: cs =>
    if pyIsSpace c then
      match (c :: cs).dropWhile pyIsSpace with
      | '\x7d' :: rest => '\x7b' :: subSpaceBeforeFuel fuel rest
      | _ => c :: subSpaceBeforeFuel fuel cs
    else c :: subSpaceBeforeFuel fuel cs

/-- `spacebeforere.sub("{", s)` from the source. -/
def subSpaceBefore (s : List Char) : List Char :=
  subSpaceBeforeFuel s.length s

/-- Head-is-whitespace test used by the `\{\s+` matcher. -/
def headIsSpace : List Char → Bool
  | [] => false
  | d :: _ => pyIsSpace d

/-- `re.sub` for the pattern `\{\s+` with replacement text `"}"` (again the
swapped replacement of the source's `spaceafterre.sub("}", s)`). -/
def subSpaceAfterFuel : Nat → List Char → List Char
  | 0, s => s
  | _, [] => []
  | fuel + 1, c :: cs =>
    if c == '\x7b' && headIsSpace cs then
      '\x7d' :: subSpaceAfterFuel fuel (cs.dropWhile pyIsSpace)
    else c :: subSpaceAfterFuel fuel cs

/-- `spaceafterre.sub("}", s)` from the source. -/
def subSpaceAfter (s : List Char) : List Char :=
  subSpaceAfterFuel s.length s

/-- `CitationIndex.nobracespace`: first the `\s+\}` substitution, then the
`\{\s+` substitution (with the source's swapped replacement braces). -/
def nobracespace (s : List Char) : List Char :=
  subSpaceAfter (subSpaceBefore s)

/-- Python `str.replace`: replace every non-overlapping occurrence of `find`
(left to right) by `repl`.  Fuel-indexed; identity when `find` is empty
(never the case for the source's table). -/
def strReplaceFuel (find repl : List Char) : Nat → List Char → List Char
  | 0, s => s
  | _, [] => []
  | fuel + 1, c :: cs =>
    if find.isPrefixOf (c :: cs) ∧ find ≠ [] then
      repl ++ strReplaceFuel find repl fuel ((c :: cs).drop find.length)
    else c :: strReplaceFuel find repl fuel cs

/-- Python `s.replace(find, repl)`. -/
def strReplace (find repl s : List Char) : List Char :=
  strReplaceFuel find repl s.length s

/-- The `replacements` table of `CitationIndex.__init__`, in source order. -/
def replacements : List (List Char × List Char) :=
  [ (("\\OE").data, ("OE").data),
    (("\\aa").data, ("a").data),
    (("\\O").data, ("O").data),
    (("\\o").data, ("o").data),
    (("\\ss").data, ("s").data),
    (("\\ae").data, ("ae").data),
    (("\\AA").data, ("A").data),
    (("\\L").data, ("L").data),
    (("\\l").data, ("l").data),
    (("\\oe").data, ("oe").data),
    (("\\ae").data, ("AE").data),
    (("~").data, (" ").data) ]

/-- The replacement loop of `CitationIndex.purify`. -/
def applyReplacements (s : List Char) : List Char :=
  replacements.foldl (fun acc p => strReplace p.1 p.2 acc) s

/-- `tokenre.sub("", s)` for the pattern `\\[^ \{] ?`: a backslash, one
character that is neither a space nor an opening brace, and a greedy optional
trailing space, all deleted. -/
def subToken : List Char → List Char
  | [] => []
  | '\\' :: c :: ' ' :: cs =>
    if c ≠ ' ' ∧ c ≠ '\x7b' then subToken cs
    else '\\' :: subToken (c :: ' ' :: cs)
  | '\\' :: c :: cs =>
    if c ≠ ' ' ∧ c ≠ '\x7b' then subToken cs
    else '\\' :: subToken (c :: cs)
  | c :: cs => c :: subToken cs

/-- Membership in `keeptext = ascii_letters + digits + " "`
(the `CitationIndex.keep` predicate). -/
def keepChar (c : Char) : Bool := c.isAlpha || c.isDigit || c == ' '

/-- Modelled from the spec: the comparison key `CitationIndex.purify` is
documented to produce — brace-space removal, the replacement table, token
deletion, keeping only letters/digits/space, upper-casing.  (The source's
`purify` instead returns `str` of a `filter` object; see `purify`.) -/
def purifySpec (name : List Char) : List Char :=
  ((subToken (applyReplacements (nobracespace name))).filter keepChar).map
    Char.toUpper

/-- What Python 3 `str(filter(...))` evaluates to: the repr of the filter
object, `"<filter object at 0x...>"`, with an arbitrary address. -/
def pyFilterObjStr (addr : List Char) : List Char :=
  ("<filter object at 0x").data ++ addr ++ (">").data

/-- `CitationIndex.purify` from the source.  The pipeline is computed but its
value is discarded by the final `name = str(filter(self.keep, name))`: in
Python 3 this is the filter object's repr, so the returned "key" is the
upper-cased repr string, independent of the input name. -/
def purify (addr : List Char) (name : List Char) : List Char :=
  let _pipeline := subToken (applyReplacements (nobracespace name))
  (pyFilterObjStr addr).map Char.toUpper

/-- A non-greedy group split: the regex fragment `(.*?)` followed by the
literal `delim` followed by a continuation `k`; positions are tried left to
right, exactly as the backtracking engine does. -/
def ngSplit {α : Type} (delim : List Char) (k : List Char → Option α) :
    List Char → Option (List Char × α)
  | [] => if delim.isEmpty then (k []).map (fun a => ([], a)) else none
  | c :: cs =>
    if delim.isPrefixOf (c :: cs) then
      match k ((c :: cs).drop delim.length) with
      | some a => some ([], a)
      | none => (ngSplit delim k cs).map (fun p => (c :: p.1, p.2))
    else (ngSplit delim k cs).map (fun p => (c :: p.1, p.2))

/-- The trailing `(?P<page>.*?)\}` group of `CitationIndex.entryre`. -/
def matchPage (s : List Char) : Option (List Char) :=
  (ngSplit ['\x7d'] (fun _ => some ()) s).map (fun p => p.1)

/-- The `(?P<year>.*?)\}\{(?P<page>.*?)\}` tail of `CitationIndex.entryre`. -/
def matchYearPage (s : List Char) : Option (List Char × List Char) :=
  ngSplit ['\x7d', '\x7b'] matchPage s

/-- The three groups of `CitationIndex.entryre` after its literal prefix:
author up to `}\ `, year up to `}{`, page up to `}`. -/
def entryGroupsFn (s : List Char) :
    Option (List Char × List Char × List Char) :=
  ngSplit ['\x7d', '\\', ' '] matchYearPage s

/-- The literal prefix of `CitationIndex.entryre`: `\indexentry {{`. -/
def entryLit : List Char := ("\\indexentry \x7b\x7b").data

/-- `entryre.search` on one line: leftmost occurrence of the literal prefix
from which the three non-greedy groups complete. -/
def entrySearch : List Char → Option (List Char × List Char × List Char)
  | [] => none
  | c :: cs =>
    if entryLit.isPrefixOf (c :: cs) then
      match entryGroupsFn ((c :: cs).drop entryLit.length) with
      | some g => some g
      | none => entrySearch cs
    else entrySearch cs

/-- Substring occurrence test. -/
def occursIn (pat : List Char) : List Char → Bool
  | [] => pat.isEmpty
  | c :: cs => pat.isPrefixOf (c :: cs) || occursIn pat cs

/-- The output line `CitationIndex.clean` writes for one parsed entry:
`\indexentry{NICEKEY@{author}\ year}{page}` with
`NICEKEY = purify(author) + " " + purify(year)`. -/
def mkCleanedEntry (pur : List Char → List Char)
    (name year page : List Char) : List Char :=
  ("\\indexentry\x7b").data ++ pur name ++ [' '] ++ pur year ++
    ['@', '\x7b'] ++ name ++ ['\x7d', '\\', ' '] ++ year ++
    ['\x7d', '\x7b'] ++ page ++ ['\x7d']

/-- One line of `CitationIndex.clean`: parse it with `entryre.search` and
emit the rewritten entry, or `none` for the `RuntimeError` branch. -/
def cleanLine (pur : List Char → List Char) (line : List Char) :
    Option (List Char) :=
  (entrySearch line).map (fun g => mkCleanedEntry pur g.1 g.2.1 g.2.2)

/-- The line loop of `CitationIndex.clean`: lines written so far, and whether
the loop completed (false = `RuntimeError` raised at the first bad line). -/
def cleanGo (pur : List Char → List Char) :
    List (List Char) → List (List Char) → List (List Char) × Bool
  | acc, [] => (acc.reverse, true)
  | acc, l :: ls =>
    match cleanLine pur l with
    | some o => cleanGo pur (o :: acc) ls
    | none => (acc.reverse, false)

/-- `CitationIndex.clean` with a caller-specified output file: the final
content of the destination (buffered writes are flushed when the exception
closes the file) and the success flag. -/
def cleanExplicit (pur : List Char → List Char) (input : List (List Char)) :
    List (List Char) × Bool :=
  cleanGo pur [] input

/-- `CitationIndex.clean` in default mode: entries go to a temporary file
which is renamed over the input only after the loop completes, so the
destination is the full output on success and the untouched input otherwise. -/
def cleanDefault (pur : List Char → List Char) (input : List (List Char)) :
    List (List Char) × Bool :=
  let r := cleanGo pur [] input
  (if r.2 then r.1 else input, r.2)

/-- The identity key function, used to instantiate `cleanLine`'s `pur`
parameter in concrete examples. -/
def purId : List Char → List Char := fun s => s

/-! Concrete instances used by the claim counterexamples and witnesses. -/

/-- A snapshot set with one aux file referencing one bibliography source. -/
def auxC1 : List (String × AuxFile) :=
  [(("d.aux"), ⟨("d.aux"), true, MTime.fin 5, [("refs.bib")], none⟩)]

/-- A file system where the bibliography source exists but `d.bbl` does not. -/
def mtimesC1 : String → Option Int :=
  fun f => if f = ("refs.bib") then some 10 else none

/-- A path resolver that returns its input unchanged. -/
def kpseId : List String → List String := fun l => l

/-- A file system where the tex source exists but the index does not. -/
def mtimesC2 : String → Option Int :=
  fun f => if f = ("doc.tex") then some 100 else none

/-- A file system where every file has modification time 100. -/
def mtimesC2w : String → Option Int := fun _ => some 100

/-- A two-capture-line check matching exactly the line `X`. -/
def checkX2 : Check := ⟨fun s => s == ("X"), ("warning"), 2⟩

/-- A single-capture-line check matching every line. -/
def checkAll1 : Check := ⟨fun _ => true, ("warning"), 1⟩

/-- A signal stream where every iteration is clean. -/
def sigClean : Nat → IterState := fun _ => cleanIterState

/-- The source's `purify` at a fixed (arbitrary) object address. -/
def purC6 : List Char → List Char := purify (("7f").data)

/-- A well-formed raw citation-index entry line. -/
def inLineC6 : List Char :=
  ("\\indexentry \x7b\x7bSmith\x7d\\ 2020\x7d\x7b10\x7d").data

/-- A well-formed raw citation-index entry line. -/
def goodLineC7 : List Char :=
  ("\\indexentry \x7b\x7bA\x7d\\ 2020\x7d\x7b1\x7d").data

/-- A line that does not match the entry pattern. -/
def badLineC7 : List Char := ("x").data

/-- Old snapshot: one aux file with bibdata `[a.bib]` at time 5. -/
def oldAuxC8 : List (String × AuxFile) :=
  [(("d.aux"), ⟨("d.aux"), true, MTime.fin 5, [("a.bib")], none⟩)]

/-- New snapshot: same file, same timestamp, bibdata now `[b.bib]`. -/
def newAuxC8 : List (String × AuxFile) :=
  [(("d.aux"), ⟨("d.aux"), true, MTime.fin 5, [("b.bib")], none⟩)]

/-- Old snapshot record for the reordering witness. -/
def oldRecW8 : AuxFile := ⟨("d.aux"), true, MTime.fin 5, [("a.bib"), ("b.bib")], none⟩

/-- New snapshot record: later timestamp, same bibdata set, reordered. -/
def newRecW8 : AuxFile := ⟨("d.aux"), true, MTime.fin 6, [("b.bib"), ("a.bib")], none⟩

/-- Old snapshot set for the reordering witness. -/
def oldAuxW8 : List (String × AuxFile) := [(("d.aux"), oldRecW8)]

/-- New snapshot set for the reordering witness. -/
def newAuxW8 : List (String × AuxFile) := [(("d.aux"), newRecW8)]

/-- A file system where `b.aux` exists but `a.aux` does not. -/
def fsC9 : String → Option FileInfo :=
  fun f => if f = ("b.aux") then some ⟨5, []⟩ else none

/-- A constant digest function. -/
def digestC9 : String → String := fun _ => ("dd")

/-- A two-entry snapshot set with distinct keys. -/
def auxC10 : List (String × AuxFile) :=
  [(("a.aux"), ⟨("a.aux"), true, MTime.fin 1, [("x.bib")], some ("h1")⟩),
   (("b.aux"), ⟨("b.aux"), false, MTime.neginf, [], none⟩)]

/-! Helper lemmas. -/

lemma MTime.lt_self (t : MTime) : MTime.lt t t = false := by
  cases t <;> simp [MTime.lt]

lemma MTime.le_posinf_left {v : MTime} (h : v ≠ MTime.posinf) :
    MTime.le MTime.posinf v = false := by
  cases v <;> simp_all [MTime.le]

lemma getmtime_ne_posinf (m : String → Option Int) (f : String) :
    getmtime m f MTime.neginf ≠ MTime.posinf := by
  unfold getmtime; cases m f <;> simp

lemma safemin_eq_posinf {l : List MTime} (h : ∀ x ∈ l, x = MTime.posinf) :
    safemin l = MTime.posinf := by
  induction l with
  | nil => rfl
  | cons x xs ih =>
    have hx : x = MTime.posinf := h x (List.mem_cons_self x xs)
    have hxs : safemin xs = MTime.posinf :=
      ih (fun y hy => h y (List.mem_cons_of_mem x hy))
    show MTime.min x (safemin xs) = MTime.posinf
    rw [hx, hxs]; rfl

lemma safemax_ne_posinf {l : List MTime} (h : ∀ x ∈ l, x ≠ MTime.posinf) :
    safemax l ≠ MTime.posinf := by
  induction l with
  | nil => simp [safemax]
  | cons x xs ih =>
    have hx : x ≠ MTime.posinf := h x (List.mem_cons_self x xs)
    have hxs : safemax xs ≠ MTime.posinf :=
      ih (fun y hy => h y (List.mem_cons_of_mem x hy))
    show MTime.max x (safemax xs) ≠ MTime.posinf
    unfold MTime.max; split
    · exact hxs
    · exact hx

lemma lookupAux_self {A : List (String × AuxFile)}
    (h : (A.map Prod.fst).Nodup) {f : String} {a : AuxFile}
    (hm : (f, a) ∈ A) : lookupAux A f = some a := by
  induction A with
  | nil => cases hm
  | cons p A ih =>
    rw [List.map_cons, List.nodup_cons] at h
    obtain ⟨hnot, hnd⟩ := h
    rcases List.mem_cons.mp hm with he | ht
    · subst he
      simp [lookupAux, List.find?_cons_of_pos]
    · have hne : (p.1 == f) = false := by
        apply beq_eq_false_iff_ne.mpr
        intro e
        exact hnot (e ▸ List.mem_map_of_mem Prod.fst ht)
      have := ih hnd ht
      simpa [lookupAux, List.find?_cons_of_neg, hne] using this

/-- C10: diffing a snapshot set against itself yields the empty change set,
in either strict-mode setting: no entry is absent from itself, strictly newer
than itself, or digest-distinct from itself. -/
theorem C10_theorem (A : List (String × AuxFile)) (md5c : Bool)
    (h : (A.map Prod.fst).Nodup) : getmodifiedaux A A md5c = [] := by
  unfold getmodifiedaux
  rw [List.filter_eq_nil_iff]
  intro p hp
  obtain ⟨f, a⟩ := p
  rw [lookupAux_self h hp]
  simp [MTime.lt_self]

/-- C10 witness: the theorem applied to a concrete two-entry snapshot set. -/
theorem C10_witness : getmodifiedaux auxC10 auxC10 true = [] :=
  C10_theorem auxC10 true (by decide)

/-- C1 (amended): the bibliography staleness check is true iff bibliography
sources are referenced and the newest source mtime is `>=` the oldest
compiled-bibliography mtime, where a missing compiled bibliography counts as
infinitely NEW (`na=float("inf")`), not infinitely old; in particular if every
compiled-bibliography file is missing the check is false, whatever the source
timestamps are. -/
theorem C1_theorem :
    (∀ (A : List (String × AuxFile)) (m : String → Option Int)
        (k : List String → List String) (b : Bool),
        (∀ p ∈ A, m (subAuxBbl p.1) = none) → (biboutofdate A m k b).1 = false) ∧
    (∀ (A : List (String × AuxFile)) (m : String → Option Int)
        (k : List String → List String) (b : Bool),
        ((biboutofdate A m k b).1 = true ↔
          (bibSources A b ≠ [] ∧
            MTime.le (oldestbblOf A m)
              (newestbibOf m (k (bibSources A b))) = true))) := by
  constructor
  · intro A m k b h
    cases hbe : (bibSources A b).isEmpty
    · have hold : oldestbblOf A m = MTime.posinf := by
        apply safemin_eq_posinf
        intro t ht
        simp only [oldestbblOf, List.map_map, List.mem_map] at ht
        obtain ⟨p, hp, rfl⟩ := ht
        simp [getmtime, h p hp]
      have hnew : newestbibOf m (k (bibSources A b)) ≠ MTime.posinf := by
        apply safemax_ne_posinf
        intro t ht
        simp only [newestbibOf, List.mem_map] at ht
        obtain ⟨f, hf, rfl⟩ := ht
        exact getmtime_ne_posinf m f
      have h1 : (biboutofdate A m k b).1 =
          MTime.le (oldestbblOf A m) (newestbibOf m (k (bibSources A b))) := by
        simp [biboutofdate, hbe]
      rw [h1, hold, MTime.le_posinf_left hnew]
    · simp [biboutofdate, hbe]
  · intro A m k b
    cases hbe : (bibSources A b).isEmpty
    · have hne : bibSources A b ≠ [] := by
        intro e; rw [e] at hbe; simp at hbe
      simp [biboutofdate, hbe, hne]
    · have he : bibSources A b = [] := by
        cases hs : bibSources A b with
        | nil => rfl
        | cons x xs => rw [hs] at hbe; simp at hbe
      simp [biboutofdate, hbe, he]

/-- C1 counterexample: one snapshot referencing `refs.bib` (mtime 10) whose
compiled bibliography `d.bbl` does not exist; the claim says the check must
then be true, but the code returns false. -/
theorem C1_counterexample :
    bibSources auxC1 true = [("refs.bib")] ∧ mtimesC1 ("d.bbl") = none ∧
      (biboutofdate auxC1 mtimesC1 kpseId true).1 = false :=
  ⟨rfl, rfl, rfl⟩

/-- C1 witness: the amended theorem's missing-bbl clause at a concrete input. -/
theorem C1_witness : (biboutofdate auxC1 mtimesC1 kpseId true).1 = false :=
  C1_theorem.1 auxC1 mtimesC1 kpseId true (by decide)

/-- C2 (amended): for files that exist, the per-index staleness check is true
iff `sourceModTime >= indexModTime` (equality included); but a missing index
counts as infinitely NEW (`na=float("inf")`), so the check is false — not
true — whenever the index file does not exist. -/
theorem C2_theorem :
    (∀ (m : String → Option Int) (tex ind : String) (s i : Int),
        m tex = some s → m ind = some i →
        (indexOutOfDate m tex ind = true ↔ i ≤ s)) ∧
    (∀ (m : String → Option Int) (tex ind : String),
        m ind = none → indexOutOfDate m tex ind = false) := by
  constructor
  · intro m tex ind s i hs hi
    simp [indexOutOfDate, getmtime, hs, hi, MTime.le]
  · intro m tex ind hind
    cases ht : m tex <;> simp [indexOutOfDate, getmtime, hind, ht, MTime.le]

/-- C2 counterexample: the tex source exists (mtime 100) and the index file
does not; the claim says the check must be true, but the code returns false. -/
theorem C2_counterexample :
    mtimesC2 ("doc.ind") = none ∧
      indexOutOfDate mtimesC2 ("doc.tex") ("doc.ind") = false :=
  ⟨rfl, rfl⟩

/-- C2 witness: equal timestamps count as stale. -/
theorem C2_witness : indexOutOfDate mtimesC2w ("doc.tex") ("doc.ind") = true :=
  (C2_theorem.1 mtimesC2w ("doc.tex") ("doc.ind") 100 100 rfl rfl).mpr
    (by decide)

lemma runChecks_snd_length (line : String) (cs : List Check) (rest : List String) :
    ((runChecks line cs rest).2).length ≤ rest.length := by
  induction cs generalizing rest with
  | nil => simp [runChecks]
  | cons c cs ih =>
    cases hm : c.regex line
    · simpa [runChecks, hm] using ih rest
    · simp only [runChecks, hm, if_true]
      calc ((runChecks line cs (rest.drop (c.lines - 1))).2).length
          ≤ (rest.drop (c.lines - 1)).length := ih _
        _ ≤ rest.length := by
            rw [List.length_drop]; exact Nat.sub_le _ _

lemma searchAllFuel_congr (checks : List Check) :
    ∀ (f1 f2 : Nat) (log : List String), log.length ≤ f1 → log.length ≤ f2 →
      searchAllFuel checks f1 log = searchAllFuel checks f2 log := by
  intro f1
  induction f1 with
  | zero =>
    intro f2 log h1 _
    have hl : log = [] := List.length_eq_zero.mp (Nat.le_zero.mp h1)
    subst hl
    cases f2 <;> rfl
  | succ k ih =>
    intro f2 log h1 h2
    cases log with
    | nil => cases f2 <;> rfl
    | cons line rest =>
      cases f2 with
      | zero => exact absurd h2 (by simp)
      | succ m =>
        simp only [searchAllFuel]
        congr 1
        have hk : rest.length ≤ k := by simpa using h1
        have hm : rest.length ≤ m := by simpa using h2
        exact ih m _ (le_trans (runChecks_snd_length line checks rest) hk)
          (le_trans (runChecks_snd_length line checks rest) hm)

lemma runChecks_ones (line : String) (cs : List Check) (rest : List String)
    (h : ∀ c ∈ cs, c.lines = 1) :
    runChecks line cs rest =
      ((cs.filter (fun c => c.regex line)).map (fun c => (c.level, line)), rest) := by
  induction cs with
  | nil => rfl
  | cons c cs ih =>
    have hc : c.lines = 1 := h c (List.mem_cons_self c cs)
    have ihr := ih (fun d hd => h d (List.mem_cons_of_mem c hd))
    cases hm : c.regex line
    · simp [runChecks, hm, ihr, List.filter_cons]
    · simp [runChecks, hm, ihr, List.filter_cons, hc, padTake,
        String.intercalate]
      rfl

/-- C3 (amended): the log scan tests each line the shared iterator stops at
against every registered pattern in order (when no rule captures context, that
is every line of the log); but the `captureLines - 1` context lines of a match
are consumed from the same iterator via `next(log, "")` — they are not
themselves tested against any pattern — and past end-of-log the block is
padded with empty strings rather than shortened. -/
theorem C3_theorem :
    (∀ (checks : List Check) (log : List String), (∀ c ∈ checks, c.lines = 1) →
        searchAll checks log =
          log.flatMap (fun l =>
            (checks.filter (fun c => c.regex l)).map (fun c => (c.level, l)))) ∧
    (∀ (c : Check) (line : String) (rest : List String), c.regex line = true →
        searchAll [c] (line :: rest) =
          (c.level,
            String.intercalate ("\n") (line :: padTake (c.lines - 1) rest)) ::
            searchAll [c] (rest.drop (c.lines - 1))) := by
  constructor
  · intro checks log h
    induction log with
    | nil => rfl
    | cons line rest ih =>
      show searchAllFuel checks (rest.length + 1) (line :: rest) = _
      simp only [searchAllFuel]
      rw [runChecks_ones line checks rest h]
      rw [show searchAllFuel checks rest.length rest = searchAll checks rest
        from rfl, ih]
      simp
  · intro c line rest hm
    show searchAllFuel [c] (rest.length + 1) (line :: rest) = _
    simp only [searchAllFuel]
    rw [show runChecks line [c] rest =
        ([(c.level,
            String.intercalate ("\n") (line :: padTake (c.lines - 1) rest))],
          rest.drop (c.lines - 1)) from by simp [runChecks, hm]]
    rw [searchAllFuel_congr [c] rest.length (rest.drop (c.lines - 1)).length
      (rest.drop (c.lines - 1))
      (by rw [List.length_drop]; exact Nat.sub_le _ _) (le_refl _)]
    rfl

/-- C3 counterexample: a two-line-capture rule matching `X` on the log
`X, X, Y`.  The second `X` matches the pattern, yet only one block is
produced — the second `X` was consumed as captured context and never tested,
whereas the claim predicts a second block `X\nY`. -/
theorem C3_counterexample :
    searchAll [checkX2] [("X"), ("X"), ("Y")] = [(("warning"), ("X\nX"))] ∧
      checkX2.regex ("X") = true :=
  ⟨rfl, rfl⟩

/-- C3 witness: the amended theorem's every-line clause at a concrete input. -/
theorem C3_witness :
    searchAll [checkAll1] [("a"), ("b")] =
      [(("warning"), ("a")), (("warning"), ("b"))] := by
  have h := C3_theorem.1 [checkAll1] [("a"), ("b")]
    (by intro c hc; rw [List.mem_singleton] at hc; subst hc; rfl)
  exact h.trans rfl

/-- C4: with `minruns = 2`, `maxruns = 4`, pdflatex always exiting zero, clean
log buckets, and no staleness or slide signal, the loop runs exactly 2
iterations and ends with `keepgoing = false` (success); iteration 1 continues
solely because of the minimum-run floor (with `minruns = 1` it would stop),
and iteration 2 decides false. -/
theorem C4_theorem (sig : Nat → IterState)
    (h : ∀ r, (sig r).pdflatexCode = 0 ∧ logDirty (sig r).logMessages = false ∧
      (sig r).bibStale = false ∧ (sig r).slidesChanged = false ∧
      (sig r).bibdataDirty = false ∧ (sig r).paranoidDirty = false ∧
      (sig r).indexStale = false) :
    mainLoop sig 2 4 = (2, false) ∧ keepgoingAt (sig 1) 2 1 = true ∧
      keepgoingAt (sig 2) 2 2 = false ∧ keepgoingAt (sig 1) 1 1 = false := by
  have key : ∀ r minr run, keepgoingAt (sig r) minr run = decide (run < minr) := by
    intro r minr run
    obtain ⟨e1, e2, e3, e4, e5, e6, e7⟩ := h r
    simp [keepgoingAt, e1, e2, e3, e4, e5, e6, e7]
  have e1 : keepgoingAt (sig 1) 2 1 = true := by rw [key 1 2 1]; decide
  have e2 : keepgoingAt (sig 2) 2 2 = false := by rw [key 2 2 2]; decide
  refine ⟨?_, e1, e2, ?_⟩
  · show runLoop sig 2 [1, 2, 3, 4] = (2, false)
    simp [runLoop, e1, e2]
  · rw [key 1 1 1]; decide

/-- C4 witness: the theorem at the all-clean signal stream. -/
theorem C4_witness :
    mainLoop sigClean 2 4 = (2, false) ∧ keepgoingAt (sigClean 1) 2 1 = true ∧
      keepgoingAt (sigClean 2) 2 2 = false ∧
      keepgoingAt (sigClean 1) 1 1 = false :=
  C4_theorem sigClean (fun _ => ⟨rfl, rfl, rfl, rfl, rfl, rfl, rfl⟩)

/-- C5: the code's `purify` never returns the documented comparison key: in
Python 3, `str(filter(self.keep, name))` is the filter object's repr, so for
every input the returned string starts with `<` — a character outside the
claimed alphabet of letters, digits and spaces (`keepChar '<' = false`) —
whatever the object address is.  The documented transformation (`purifySpec`)
would instead map the failing input `Smith` to `SMITH`. -/
theorem C5_theorem :
    ∀ (addr name : List Char),
      (purify addr name).head? = some '<' ∧ keepChar '<' = false ∧
        purifySpec (("Smith").data) = (("SMITH")).data :=
  fun _ _ => ⟨rfl, rfl, rfl⟩

lemma entrySearch_eq_none {s : List Char} (h : occursIn entryLit s = false) :
    entrySearch s = none := by
  induction s with
  | nil => rfl
  | cons c cs ih =>
    rw [occursIn] at h
    rcases Bool.or_eq_false_iff.mp h with ⟨h1, h2⟩
    simp [entrySearch, h1, ih h2]

/-- C6 (amended): citation normalization is not idempotent — an output line of
`clean` (which starts `\indexentry{` with no space and carries the sort key)
never matches the input pattern (whose literal prefix is `\indexentry {{`), as
long as the rewritten payload does not accidentally contain that literal; so a
second run raises the fatal error on its first line and, in default mode,
leaves the destination file unchanged instead of reproducing the display
fields. -/
theorem C6_theorem :
    ∀ (pur : List Char → List Char) (name year page : List Char),
      occursIn entryLit (mkCleanedEntry pur name year page) = false →
      cleanLine pur (mkCleanedEntry pur name year page) = none ∧
        ∀ rest, cleanDefault pur (mkCleanedEntry pur name year page :: rest) =
          (mkCleanedEntry pur name year page :: rest, false) := by
  intro pur name year page h
  have hnone : cleanLine pur (mkCleanedEntry pur name year page) = none := by
    simp [cleanLine, entrySearch_eq_none h]
  refine ⟨hnone, ?_⟩
  intro rest
  simp [cleanDefault, cleanGo, hnone]

/-- C6 counterexample: `clean` parses the well-formed entry line for
`Smith / 2020 / 10` (first conjunct), but running `clean` again on the line it
produced fails to parse it — the second pass raises instead of succeeding with
identical display fields. -/
theorem C6_counterexample :
    (cleanLine purC6 inLineC6).isSome = true ∧
      Option.bind (cleanLine purC6 inLineC6) (cleanLine purC6) = none :=
  ⟨rfl, rfl⟩

/-- C6 witness: the amended theorem at a concrete cleaned entry. -/
theorem C6_witness :
    cleanLine purId (mkCleanedEntry purId (("Smith").data) (("2020").data)
      (("10").data)) = none :=
  (C6_theorem purId (("Smith").data) (("2020").data) (("10").data) rfl).1

lemma cleanGo_partial (pur : List Char → List Char) (pre : List (List Char))
    (bad : List Char) (rest : List (List Char)) :
    ∀ (acc : List (List Char)),
      (∀ l ∈ pre, (cleanLine pur l).isSome = true) → cleanLine pur bad = none →
      cleanGo pur acc (pre ++ bad :: rest) =
        (acc.reverse ++ pre.filterMap (cleanLine pur), false) := by
  induction pre with
  | nil =>
    intro acc _ hbad
    simp [cleanGo, hbad]
  | cons l pre ih =>
    intro acc h hbad
    have hl := h l (List.mem_cons_self l pre)
    obtain ⟨o, ho⟩ := Option.isSome_iff_exists.mp hl
    rw [List.cons_append]
    rw [show cleanGo pur acc (l :: (pre ++ bad :: rest)) =
        cleanGo pur (o :: acc) (pre ++ bad :: rest) from by simp [cleanGo, ho]]
    rw [ih (o :: acc) (fun d hd => h d (List.mem_cons_of_mem l hd)) hbad]
    simp [List.filterMap_cons, ho]

/-- C7 (amended): a line that does not match the entry pattern makes `clean`
raise immediately — lines after it are never processed; but only the default
(atomic-rename) mode leaves the destination untouched: with a caller-specified
output file the entries rewritten before the bad line have already been
written to the destination, a partial write. -/
theorem C7_theorem :
    ∀ (pur : List Char → List Char) (pre : List (List Char)) (bad : List Char)
      (rest : List (List Char)),
      (∀ l ∈ pre, (cleanLine pur l).isSome = true) → cleanLine pur bad = none →
      cleanExplicit pur (pre ++ bad :: rest) =
        (pre.filterMap (cleanLine pur), false) ∧
      cleanDefault pur (pre ++ bad :: rest) = (pre ++ bad :: rest, false) := by
  intro pur pre bad rest h hbad
  have hg := cleanGo_partial pur pre bad rest [] h hbad
  constructor
  · simp [cleanExplicit, hg]
  · simp [cleanDefault, hg]

/-- C7 counterexample: on input `[good entry, bad line]` with a
caller-specified output file, the run fails (first conjunct) yet the
destination already holds one rewritten entry (second conjunct) — a partial
write, contradicting the unconditional no-partial-write claim. -/
theorem C7_counterexample :
    (cleanExplicit purId [goodLineC7, badLineC7]).2 = false ∧
      (cleanExplicit purId [goodLineC7, badLineC7]).1.length = 1 :=
  ⟨rfl, rfl⟩

/-- C7 witness: the amended theorem at a concrete good-then-bad input. -/
theorem C7_witness :
    cleanExplicit purId ([goodLineC7] ++ badLineC7 :: []) =
      ([goodLineC7].filterMap (cleanLine purId), false) ∧
      cleanDefault purId ([goodLineC7] ++ badLineC7 :: []) =
        ([goodLineC7] ++ badLineC7 :: [], false) :=
  C7_theorem purId [goodLineC7] badLineC7 []
    (by intro l hl; rw [List.mem_singleton] at hl; subst hl; rfl) rfl

/-- C8 (amended): a changed bibliography-directive list forces the continue
decision only when the artifact is in the modified snapshot set (here: its
timestamp strictly increased) and was present in the old set; the comparison
is on the ordered directive sequence, so a pure reordering also counts.  (With
every timestamp unchanged and strict mode off, the artifact is not in the
modified set and the check is skipped — see the counterexample.) -/
theorem C8_theorem :
    ∀ (old new : List (String × AuxFile)) (md5c : Bool) (f : String)
      (oA nA : AuxFile),
      (f, nA) ∈ new → lookupAux old f = some oA →
      MTime.lt oA.timestamp nA.timestamp = true → nA.bibdata ≠ [] →
      oA.bibdata ≠ nA.bibdata →
      bibdataChanged old new md5c = true ∧
        (∀ (st : IterState), st.bibdataDirty = true →
          ∀ minr run, keepgoingAt st minr run = true) := by
  intro old new md5c f oA nA hmem hold hlt hne1 hne2
  constructor
  · unfold bibdataChanged
    rw [List.any_eq_true]
    refine ⟨(f, nA), ?_, ?_⟩
    · rw [getmodifiedaux, List.mem_filter]
      refine ⟨hmem, ?_⟩
      simp only [hold, hlt]
      simp
    · have h1 : nA.bibdata.isEmpty = false := by
        cases hb : nA.bibdata with
        | nil => exact absurd hb hne1
        | cons x xs => rfl
      simp only [hold]
      simp [h1, hne2]
  · intro st hst minr run
    simp [keepgoingAt, hst]

/-- C8 counterexample: the same artifact in two consecutive snapshots with an
unchanged timestamp but a changed bibliography list: the modified set is
empty, the directive comparison is skipped, and the continue decision stays
false even past the minimum-run floor — the claim predicts true. -/
theorem C8_counterexample :
    bibdataChanged oldAuxC8 newAuxC8 false = false ∧
      (lookupAux oldAuxC8 ("d.aux")).map AuxFile.timestamp =
        (lookupAux newAuxC8 ("d.aux")).map AuxFile.timestamp ∧
      (lookupAux oldAuxC8 ("d.aux")).map AuxFile.bibdata ≠
        (lookupAux newAuxC8 ("d.aux")).map AuxFile.bibdata ∧
      keepgoingAt ⟨0, [], false, false, bibdataChanged oldAuxC8 newAuxC8 false,
        false, false⟩ 1 1 = false :=
  ⟨rfl, rfl, by decide, rfl⟩

/-- C8 witness: the amended theorem at a reordered directive list (same set
membership) with a bumped timestamp. -/
theorem C8_witness : bibdataChanged oldAuxW8 newAuxW8 false = true :=
  (C8_theorem oldAuxW8 newAuxW8 false ("d.aux") oldRecW8 newRecW8
    (by decide) rfl rfl (by decide) (by decide)).1

/-- C9: strict digesting is not applied uniformly: because the loop rebinds
the `md5` flag to the per-file value (`md5 = md5sum(f) if md5 else None`),
visiting a missing file sets it to `None` and every later existing file gets
no digest.  With `a.aux` missing and `b.aux` present, order
`[a.aux, b.aux]` leaves `b.aux` without a digest while order
`[b.aux, a.aux]` digests it — the claim's order-independence fails. -/
theorem C9_theorem :
    (lookupAux (getauxinfo fsC9 digestC9 [("a.aux"), ("b.aux")]
        (Md5Flag.asBool true)) ("b.aux")).map AuxFile.md5 = some none ∧
      (lookupAux (getauxinfo fsC9 digestC9 [("b.aux"), ("a.aux")]
        (Md5Flag.asBool true)) ("b.aux")).map AuxFile.md5 =
        some (some ("dd")) :=
  ⟨rfl, rfl⟩

end Latex2Pdf
